import Mathlib

/-!
Verification of the appointment-availability and booking core of the
cutz-by-bruins marketplace.

The development shallowly embeds the TypeScript source:
- `lib/utils/time.ts` (time arithmetic),
- `app/api/barbers/[id]/slots/route.ts` (availability resolution, slot
  generation, conflict filtering),
- `app/api/bookings/route.ts` (single-booking creation),
- the booking-detail PATCH handler (lifecycle state machine),
- `app/api/barber/availability/exceptions/route.ts` (exception validation).

JavaScript strings are modelled as Lean `String` (a list of characters);
JavaScript numbers arising here are non-negative integers and are modelled
as `Nat`.  `NaN` values produced by malformed time strings are modelled as
the junk value 0; every claim only concerns well-formed inputs, which is
the caller contract stated by the source.
-/

/-! ## Character / decimal-digit infrastructure

`digitChar`, `natToDigits` model the decimal rendering performed by
JavaScript `Number.prototype.toString`; `parseDigits` models `Number(...)`
applied to a digit string (which both `timeToMinutes` call sites rely on).
-/

/-- The character for a single decimal digit (0..9), code point 48 + d. -/
def digitChar (d : Nat) : Char := Char.ofNat (48 + d)

/-- Decimal digits with explicit recursion fuel (the recursion descends
from `n` to `n / 10`, so any fuel above `n` suffices); structural fuel
keeps the definition kernel-reducible. -/
def natToDigitsAux : Nat → Nat → List Char
  | 0, _ => []
  | fuel + 1, n =>
      if n < 10 then [digitChar n]
      else natToDigitsAux fuel (n / 10) ++ [digitChar (n % 10)]

/-- Decimal digits of a natural number, most significant first.
Models the output of JavaScript number-to-string conversion. -/
def natToDigits (n : Nat) : List Char := natToDigitsAux (n + 1) n

/-- Numeric value of a digit string, as folded up by JavaScript
`Number(...)` on an all-digit string. -/
def parseDigits (l : List Char) : Nat :=
  l.foldl (fun acc c => acc * 10 + (c.toNat - 48)) 0

/-- Split a character list at the character `':'`.
Models `String.prototype.split(':')`. -/
def splitOnColonAux : List Char → List Char → List (List Char)
  | [], cur => [cur.reverse]
  | c :: rest, cur =>
      if c = ':' then cur.reverse :: splitOnColonAux rest []
      else splitOnColonAux rest (c :: cur)

/-- `"a:b".split(':') = ["a", "b"]`, on character lists. -/
def splitOnColon (l : List Char) : List (List Char) := splitOnColonAux l []

/-- `String.prototype.padStart(2, '0')` on a character list. -/
def pad2 (l : List Char) : List Char :=
  if l.length < 2 then List.replicate (2 - l.length) '0' ++ l else l

/-! ## Time utilities (`lib/utils/time.ts`) -/

/-- `timeToMinutes` from `lib/utils/time.ts` (an identical local copy also
lives in `app/api/bookings/route.ts`): split on `':'`, convert the first
two fields with `Number`, return `hours * 60 + minutes`.  A string without
a `':'` yields `NaN` in JavaScript, modelled as the junk value 0. -/
def timeToMinutes (time : String) : Nat :=
  match splitOnColon time.data with
  | hours :: minutes :: _ => parseDigits hours * 60 + parseDigits minutes
  | _ => 0

/-- `minutesToTime` from `lib/utils/time.ts`: zero-padded
`HH:MM` rendering of `minutes / 60` and `minutes % 60`.  No modulo-1440
reduction is performed by the source. -/
def minutesToTime (minutes : Nat) : String :=
  String.mk (pad2 (natToDigits (minutes / 60)) ++ ':' :: pad2 (natToDigits (minutes % 60)))

/-- `calculateEndTime` from `lib/utils/time.ts`. -/
def calculateEndTime (startTime : String) (durationMinutes : Nat) : String :=
  minutesToTime (timeToMinutes startTime + durationMinutes)

/-- The loop body of `generateTimeSlots`: starting at `time`, emit
`minutesToTime time` and step by `dur` while `time + dur ≤ endM`.  The
`fuel` argument bounds the number of iterations; the caller passes
`endM + 1 - time` which is sufficient for every `dur ≥ 1` (each iteration
advances `time` by at least 1).  For `dur = 0` the TypeScript loop does
not terminate; all claims assume `dur > 0` (caller contract). -/
def genSlotsAux : Nat → Nat → Nat → Nat → List String
  | 0, _, _, _ => []
  | fuel + 1, time, endM, dur =>
      if time + dur ≤ endM then minutesToTime time :: genSlotsAux fuel (time + dur) endM dur
      else []

/-- `generateTimeSlots` from `lib/utils/time.ts`. -/
def generateTimeSlots (startTime endTime : String) (durationMinutes : Nat) : List String :=
  let startMinutes := timeToMinutes startTime
  let endMinutes := timeToMinutes endTime
  genSlotsAux (endMinutes + 1 - startMinutes) startMinutes endMinutes durationMinutes

/-- The canonical zero-padded rendering of an `HH:MM` clock time with
hour field `h` and minute field `m`; for `h ≤ 23` and `m ≤ 59` these are
exactly the valid zero-padded 24-hour `HH:MM` strings. -/
def renderHHMM (h m : Nat) : String :=
  String.mk (pad2 (natToDigits h) ++ ':' :: pad2 (natToDigits m))

/-- Decidable recognizer for valid zero-padded 24-hour `HH:MM` strings
(hours 00-23, minutes 00-59). -/
def isValidHHMM (t : String) : Bool :=
  match t.data with
  | [h1, h2, ':', m1, m2] =>
      decide (48 ≤ h1.toNat) && decide (h1.toNat ≤ 57) &&
      decide (48 ≤ h2.toNat) && decide (h2.toNat ≤ 57) &&
      decide (48 ≤ m1.toNat) && decide (m1.toNat ≤ 57) &&
      decide (48 ≤ m2.toNat) && decide (m2.toNat ≤ 57) &&
      decide ((h1.toNat - 48) * 10 + (h2.toNat - 48) < 24) &&
      decide ((m1.toNat - 48) * 10 + (m2.toNat - 48) < 60)
  | _ => false

/-! ## Data model rows

Rows as read by the slots route (`app/api/barbers/[id]/slots/route.ts`).
Nullable text columns that the embedded code paths never read when null
are modelled as `String`; the request-level optionality that the
exception validator genuinely branches on is modelled with `Option`.
-/

/-- Booking lifecycle status (`bookings.status`). -/
inductive BookingStatus where
  | pending
  | confirmed
  | completed
  | cancelled
  | no_show
deriving DecidableEq, Repr

/-- A row of `availability_exceptions` as read by the slots route. -/
structure ExceptionRow where
  is_available : Bool
  start_time : String
  end_time : String
deriving DecidableEq, Repr

/-- A row of `availability_schedule` for the requested day of week. -/
structure ScheduleRow where
  start_time : String
  end_time : String
deriving DecidableEq, Repr

/-- One open window, an element of `availableHours` in the slots route. -/
structure HoursWindow where
  start_time : String
  end_time : String
deriving DecidableEq, Repr

/-- The two booking columns selected by the conflict queries
(`appointment_time, duration_minutes`). -/
structure BookingRow where
  appointment_time : String
  duration_minutes : Nat
deriving DecidableEq, Repr

/-- A full `bookings` row as relevant to the conflict queries, before the
query filters on barber, date and status. -/
structure BookingFullRow where
  barber_id : String
  appointment_date : String
  appointment_time : String
  duration_minutes : Nat
  status : BookingStatus
deriving DecidableEq, Repr

/-- The bookings query of both the slots route and the creation route:
rows of the target barber and date whose status is `pending` or
`confirmed` (`.in('status', ['pending', 'confirmed'])`), projected to
`appointment_time, duration_minutes`. -/
def queryActiveBookings (rows : List BookingFullRow) (barberId date : String) :
    List BookingRow :=
  (rows.filter (fun r =>
    r.barber_id = barberId && r.appointment_date = date &&
    (r.status = BookingStatus.pending || r.status = BookingStatus.confirmed))).map
    (fun r => { appointment_time := r.appointment_time, duration_minutes := r.duration_minutes })

/-! ## Availability resolution and slot filtering (slots route GET) -/

/-- Step 2 of the slots route: resolve `availableHours` from the
exception row (if any) and the recurring schedule for the day of week.
The `Except` error carries the early-return message that accompanies an
empty `available_slots` list. -/
def resolveAvailableHours (exception : Option ExceptionRow) (schedule : List ScheduleRow) :
    Except String (List HoursWindow) :=
  match exception with
  | some ex =>
      if ex.is_available = false then Except.error "Barber is not available on this date"
      else Except.ok [{ start_time := ex.start_time, end_time := ex.end_time }]
  | none =>
      if schedule.length = 0 then Except.error "Barber is not available on this day of the week"
      else Except.ok (schedule.map (fun s => { start_time := s.start_time, end_time := s.end_time }))

/-- `Set.prototype.add` on the model of a JavaScript `Set<string>`:
insertion order, no duplicates. -/
def setAdd (s : List String) (x : String) : List String :=
  if x ∈ s then s else s ++ [x]

/-- Step 5 of the slots route: the `bookedSlots` set.  For each active
booking (outer loop) every candidate slot is tested with
`slotStart < bookingEnd && slotEnd > bookingStart` and added to the set
when it overlaps. -/
def markBookedSlots (allSlots : List String) (appointmentDuration : Nat)
    (bookings : List BookingRow) : List String :=
  bookings.foldl (fun acc booking =>
    allSlots.foldl (fun acc2 slot =>
      if timeToMinutes slot < timeToMinutes booking.appointment_time + booking.duration_minutes ∧
         timeToMinutes slot + appointmentDuration > timeToMinutes booking.appointment_time then
        setAdd acc2 slot
      else acc2) acc) []

/-- Whether a candidate slot overlaps some booking of the list, under the
half-open interval test of the source. -/
def isBlocked (slot : String) (appointmentDuration : Nat) (bookings : List BookingRow) : Bool :=
  bookings.any (fun booking =>
    decide (timeToMinutes slot < timeToMinutes booking.appointment_time + booking.duration_minutes) &&
    decide (timeToMinutes slot + appointmentDuration > timeToMinutes booking.appointment_time))

/-- Step 6 of the slots route: keep the candidate slots that are not in
the `bookedSlots` set, in their original order. -/
def filterAvailableSlots (allSlots : List String) (appointmentDuration : Nat)
    (bookings : List BookingRow) : List String :=
  allSlots.filter (fun slot => !((markBookedSlots allSlots appointmentDuration bookings).contains slot))

/-- The response shape of the slots route: either one of the early
returns with an empty `available_slots` and a message, or the filtered
slot list. -/
inductive SlotsResponse where
  | earlyEmpty (message : String)
  | ok (available_slots : List String)
deriving DecidableEq, Repr

/-- Steps 2-6 of the slots route GET handler, after the barber profile
lookup: resolve hours, expand each window with `generateTimeSlots` at the
barber's `appointment_duration`, concatenate in window order, and filter
out slots overlapping active bookings. -/
def getAvailableSlots (exception : Option ExceptionRow) (schedule : List ScheduleRow)
    (bookings : List BookingRow) (appointmentDuration : Nat) : SlotsResponse :=
  match resolveAvailableHours exception schedule with
  | Except.error msg => SlotsResponse.earlyEmpty msg
  | Except.ok hours =>
      let allSlots := hours.foldl
        (fun acc h => acc ++ generateTimeSlots h.start_time h.end_time appointmentDuration) []
      SlotsResponse.ok (filterAvailableSlots allSlots appointmentDuration bookings)

/-! ## Single-booking creation (`app/api/bookings/route.ts` POST) -/

/-- Lexicographic strict order on character lists by code point, the
comparison JavaScript applies to strings; on equal-format zero-padded ISO
date-time strings it coincides with chronological order. -/
def lexLt : List Char → List Char → Bool
  | [], [] => false
  | [], _ :: _ => true
  | _ :: _, [] => false
  | a :: as, b :: bs => if a = b then lexLt as bs else decide (a.toNat < b.toNat)

/-- `x <= y` for the two `Date` values compared by the creation route,
modelled on their ISO `YYYY-MM-DDTHH:MM`-style renderings. -/
def isoLe (x y : String) : Bool := x = y || lexLt x.data y.data

/-- The barber profile columns read by the creation route. -/
structure BarberProfile where
  base_price : Nat
  appointment_duration : Nat
  location_type : String
  status : String
deriving DecidableEq, Repr

/-- A validated creation request (output of `createBookingSchema`). -/
structure CreateReq where
  barber_id : String
  appointment_date : String
  appointment_time : String
  customer_notes : Option String
  customer_location : Option String
deriving DecidableEq, Repr

/-- A persistence-layer error as delivered to the route; `code` is the
PostgreSQL error code (`23505` = unique-constraint violation, raised by
the partial unique index `prevent_double_booking` of migration
`20260113_prevent_double_booking.sql`). -/
structure DBError where
  code : String
deriving DecidableEq, Repr

/-- The HTTP-level outcomes of the creation route. -/
inductive PostResult where
  | notFound (error : String)
  | badRequest (error : String)
  | conflict (error : String)
  | serverError (error : String)
  | created (status : BookingStatus) (duration_minutes : Nat) (price : Nat)
deriving DecidableEq, Repr

/-- The conflict loop of the creation route (Step 3): walk the existing
active bookings and return the 409 condition at the first overlap of
`[requestedStart, requestedEnd)` with `[bookingStart, bookingEnd)`. -/
def postConflictLoop : List BookingRow → Nat → Nat → Bool
  | [], _, _ => false
  | booking :: rest, requestedStart, requestedEnd =>
      if requestedStart < timeToMinutes booking.appointment_time + booking.duration_minutes ∧
         requestedEnd > timeToMinutes booking.appointment_time then true
      else postConflictLoop rest requestedStart requestedEnd

/-- Steps 1-5 of the creation route POST handler, after authentication
and schema validation.  `now` is the current instant, `existing` the
result of the active-bookings query, and `insertError` the outcome of the
insert (the one fallible external write).  The second component records
whether a booking row was persisted.  An insert error is re-thrown by the
source (`if (bookingError) throw bookingError`) and, not being a
`ZodError`, reaches the generic catch-all, producing the 500 response
`Failed to create booking`. -/
def postCreateBooking (barber : Option BarberProfile) (now : String) (req : CreateReq)
    (existing : List BookingRow) (insertError : Option DBError) : PostResult × Bool :=
  match barber with
  | none => (PostResult.notFound "Barber not found", false)
  | some b =>
      if b.status ≠ "approved" then
        (PostResult.badRequest "Barber is not currently accepting bookings", false)
      else if isoLe (req.appointment_date ++ "T" ++ req.appointment_time) now then
        (PostResult.badRequest "Appointment must be in the future", false)
      else if postConflictLoop existing (timeToMinutes req.appointment_time)
          (timeToMinutes req.appointment_time + b.appointment_duration) then
        (PostResult.conflict "This time slot is no longer available", false)
      else if b.location_type = "mobile" ∧ req.customer_location = none then
        (PostResult.badRequest "Customer location is required for mobile barbers", false)
      else
        match insertError with
        | some _ => (PostResult.serverError "Failed to create booking", false)
        | none =>
            (PostResult.created BookingStatus.pending b.appointment_duration b.base_price, true)

/-! ## Booking lifecycle (booking-detail PATCH handler) -/

/-- Who cancelled, as declared in the request body (`cancelled_by`). -/
inductive CancelParty where
  | customer
  | barber
deriving DecidableEq, Repr

/-- The status values accepted by `updateBookingStatusSchema`
(`z.enum(['confirmed', 'completed', 'cancelled', 'no_show'])`). -/
inductive UpdateStatus where
  | confirmed
  | completed
  | cancelled
  | no_show
deriving DecidableEq, Repr

/-- The booking status written for each accepted target. -/
def UpdateStatus.toBookingStatus : UpdateStatus → BookingStatus
  | UpdateStatus.confirmed => BookingStatus.confirmed
  | UpdateStatus.completed => BookingStatus.completed
  | UpdateStatus.cancelled => BookingStatus.cancelled
  | UpdateStatus.no_show => BookingStatus.no_show

/-- A validated status-update request (output of
`updateBookingStatusSchema`). -/
structure UpdateReq where
  status : UpdateStatus
  cancellation_reason : Option String
  cancelled_by : Option CancelParty
deriving DecidableEq, Repr

/-- The booking columns mutated or guarded by the PATCH handler. -/
structure Booking where
  status : BookingStatus
  confirmed_at : Option String
  completed_at : Option String
  cancelled_by : Option CancelParty
  cancellation_reason : Option String
  updated_at : String
deriving DecidableEq, Repr

/-- The HTTP-level outcomes of the PATCH handler, after the booking fetch
and profile lookup (403 = forbidden, 400 = bad request). -/
inductive PatchOutcome where
  | forbidden (error : String)
  | badRequest (error : String)
  | ok (updated : Booking) (message : String)
deriving DecidableEq, Repr

/-- `cancellation_reason || null` of the source: JavaScript `||` maps the
empty string (falsy) and a missing value to null. -/
def normalizeReason : Option String → Option String
  | none => none
  | some s => if s = "" then none else some s

/-- The update object built by the PATCH handler once all guards pass. -/
def applyUpdate (b : Booking) (req : UpdateReq) (now : String) : Booking :=
  { b with
    status := req.status.toBookingStatus
    updated_at := now
    confirmed_at := if req.status = UpdateStatus.confirmed then some now else b.confirmed_at
    completed_at := if req.status = UpdateStatus.completed then some now else b.completed_at
    cancelled_by := if req.status = UpdateStatus.cancelled then req.cancelled_by else b.cancelled_by
    cancellation_reason :=
      if req.status = UpdateStatus.cancelled then normalizeReason req.cancellation_reason
      else b.cancellation_reason }

/-- The success message chosen per target status. -/
def patchMessage : UpdateStatus → String
  | UpdateStatus.confirmed => "Booking confirmed successfully"
  | UpdateStatus.completed => "Booking marked as completed"
  | UpdateStatus.cancelled => "Booking cancelled successfully"
  | UpdateStatus.no_show => "Booking marked as no-show"

/-- The guard cascade of the PATCH handler, in source order.
`isCustomer` and `isBarber` are the two role flags the handler computes
from the authenticated user, the booking and the barber profile. -/
def patchBooking (isCustomer isBarber : Bool) (b : Booking) (req : UpdateReq) (now : String) :
    PatchOutcome :=
  if isCustomer = false ∧ isBarber = false then
    PatchOutcome.forbidden "Unauthorized to update this booking"
  else if req.status = UpdateStatus.confirmed ∧ isBarber = false then
    PatchOutcome.forbidden "Only the barber can confirm bookings"
  else if req.status = UpdateStatus.confirmed ∧ b.status ≠ BookingStatus.pending then
    PatchOutcome.badRequest "Can only confirm pending bookings"
  else if req.status = UpdateStatus.completed ∧ isBarber = false then
    PatchOutcome.forbidden "Only the barber can mark bookings as completed"
  else if req.status = UpdateStatus.completed ∧ b.status ≠ BookingStatus.confirmed then
    PatchOutcome.badRequest "Can only complete confirmed bookings"
  else if req.status = UpdateStatus.no_show ∧ isBarber = false then
    PatchOutcome.forbidden "Only the barber can mark bookings as no-show"
  else if req.status = UpdateStatus.cancelled ∧ req.cancelled_by = none then
    PatchOutcome.badRequest "Must specify who cancelled the booking"
  else if req.status = UpdateStatus.cancelled ∧ req.cancelled_by = some CancelParty.customer ∧
      isCustomer = false then
    PatchOutcome.forbidden "Cannot cancel on behalf of customer"
  else if req.status = UpdateStatus.cancelled ∧ req.cancelled_by = some CancelParty.barber ∧
      isBarber = false then
    PatchOutcome.forbidden "Cannot cancel on behalf of barber"
  else if req.status = UpdateStatus.cancelled ∧ b.status = BookingStatus.completed then
    PatchOutcome.badRequest "Cannot cancel completed bookings"
  else
    PatchOutcome.ok (applyUpdate b req now) (patchMessage req.status)

/-- Whether a PATCH outcome is a rejection (403 or 400 response). -/
def isRejection : PatchOutcome → Bool
  | PatchOutcome.ok _ _ => false
  | _ => true

/-- The booking row after the PATCH request: the handler returns before
the database update on every rejection, so the stored record changes only
on the `ok` outcome. -/
def bookingAfterPatch (isCustomer isBarber : Bool) (b : Booking) (req : UpdateReq)
    (now : String) : Booking :=
  match patchBooking isCustomer isBarber b req now with
  | PatchOutcome.ok updated _ => updated
  | _ => b

/-! ## Availability-exception validation
(`app/api/barber/availability/exceptions/route.ts`) -/

/-- The date pattern of `addExceptionSchema`: `^\d{4}-\d{2}-\d{2}$`. -/
def dateRegexTest (s : String) : Bool :=
  match s.data with
  | [y1, y2, y3, y4, '-', m1, m2, '-', d1, d2] =>
      y1.isDigit && y2.isDigit && y3.isDigit && y4.isDigit &&
      m1.isDigit && m2.isDigit && d1.isDigit && d2.isDigit
  | _ => false

/-- The time pattern of `addExceptionSchema`:
`^([0-1]?[0-9]|2[0-3]):[0-5][0-9]$` (the hour may be a single digit). -/
def timeRegexTest (s : String) : Bool :=
  match s.data with
  | [h1, ':', m1, m2] =>
      h1.isDigit && (decide ('0' ≤ m1) && decide (m1 ≤ '5')) && m2.isDigit
  | [h1, h2, ':', m1, m2] =>
      (((h1 = '0' || h1 = '1') && h2.isDigit) ||
        (h1 = '2' && (decide ('0' ≤ h2) && decide (h2 ≤ '3')))) &&
      (decide ('0' ≤ m1) && decide (m1 ≤ '5')) && m2.isDigit
  | _ => false

/-- `addExceptionSchema.parse` as an acceptance predicate: the base
object checks (date pattern, optional time patterns) plus the two
refinements.  Refinement 1 requires both times present when
`is_available` is true (a pattern-valid string is non-empty, hence
truthy); refinement 2 requires `start_time < end_time` under JavaScript
string comparison.  Nothing constrains the times when `is_available` is
false. -/
def addExceptionValidate (date : String) (is_available : Bool)
    (start_time end_time : Option String) : Bool :=
  dateRegexTest date &&
  (match start_time with | none => true | some s => timeRegexTest s) &&
  (match end_time with | none => true | some s => timeRegexTest s) &&
  (!is_available || (start_time.isSome && end_time.isSome)) &&
  (!is_available ||
    match start_time, end_time with
    | some s, some e => lexLt s.data e.data
    | _, _ => true)

/-! ## Digit and parsing lemmas -/

theorem digitChar_toNat {d : Nat} (hd : d < 10) : (digitChar d).toNat = 48 + d := by
  interval_cases d <;> decide

theorem digitChar_ne_colon {d : Nat} (hd : d < 10) : digitChar d ≠ ':' := by
  interval_cases d <;> decide

theorem parseDigits_concat (xs : List Char) (c : Char) :
    parseDigits (xs ++ [c]) = parseDigits xs * 10 + (c.toNat - 48) := by
  simp [parseDigits, List.foldl_append]

theorem natToDigitsAux_irrel (n : Nat) : ∀ fuel fuel2, n < fuel → n < fuel2 →
    natToDigitsAux fuel n = natToDigitsAux fuel2 n := by
  induction n using Nat.strong_induction_on with
  | _ n ih =>
    intro fuel fuel2 h1 h2
    match fuel, fuel2 with
    | f1 + 1, f2 + 1 =>
      simp only [natToDigitsAux]
      by_cases h10 : n < 10
      · simp [h10]
      · simp only [if_neg h10]
        have hd : n / 10 < n := Nat.div_lt_self (by omega) (by omega)
        rw [ih (n / 10) hd f1 f2 (by omega) (by omega)]

theorem natToDigits_unfold (n : Nat) :
    natToDigits n =
      if n < 10 then [digitChar n] else natToDigits (n / 10) ++ [digitChar (n % 10)] := by
  unfold natToDigits
  simp only [natToDigitsAux]
  by_cases h10 : n < 10
  · simp [h10]
  · simp only [if_neg h10]
    have hd : n / 10 < n := Nat.div_lt_self (by omega) (by omega)
    rw [natToDigitsAux_irrel (n / 10) n (n / 10 + 1) (by omega) (by omega)]
    simp only [natToDigitsAux]

theorem parseDigits_natToDigits (n : Nat) : parseDigits (natToDigits n) = n := by
  induction n using Nat.strong_induction_on with
  | _ n ih =>
    rw [natToDigits_unfold]
    split
    · next h =>
      simp [parseDigits, digitChar_toNat h]
    · next h =>
      rw [parseDigits_concat, ih (n / 10) (Nat.div_lt_self (by omega) (by omega)),
        digitChar_toNat (Nat.mod_lt _ (by omega))]
      omega

theorem mem_natToDigits {c : Char} {n : Nat} (hc : c ∈ natToDigits n) :
    ∃ d, d < 10 ∧ c = digitChar d := by
  induction n using Nat.strong_induction_on with
  | _ n ih =>
    rw [natToDigits_unfold] at hc
    split at hc
    · next h =>
      exact ⟨n, h, by simpa using hc⟩
    · next h =>
      rcases List.mem_append.mp hc with hm | hm
      · exact ih (n / 10) (Nat.div_lt_self (by omega) (by omega)) hm
      · exact ⟨n % 10, Nat.mod_lt _ (by omega), by simpa using hm⟩

theorem colon_not_mem_natToDigits (n : Nat) : ':' ∉ natToDigits n := by
  intro h
  obtain ⟨d, hd, he⟩ := mem_natToDigits h
  exact digitChar_ne_colon hd he.symm

theorem colon_not_mem_pad2 {l : List Char} (h : ':' ∉ l) : ':' ∉ pad2 l := by
  unfold pad2
  split
  · intro hm
    rcases List.mem_append.mp hm with hm | hm
    · exact absurd (List.eq_of_mem_replicate hm) (by decide)
    · exact h hm
  · exact h

theorem parseDigits_replicate_zero (k : Nat) (l : List Char) :
    parseDigits (List.replicate k '0' ++ l) = parseDigits l := by
  induction k with
  | zero => rfl
  | succ k ih =>
    rw [List.replicate_succ, List.cons_append]
    simpa [parseDigits] using ih

theorem parseDigits_pad2 (l : List Char) : parseDigits (pad2 l) = parseDigits l := by
  unfold pad2
  split
  · exact parseDigits_replicate_zero _ l
  · rfl

/-! ## Split lemmas -/

theorem splitOnColonAux_no_colon (l : List Char) (cur : List Char) (h : ':' ∉ l) :
    splitOnColonAux l cur = [cur.reverse ++ l] := by
  induction l generalizing cur with
  | nil => simp [splitOnColonAux]
  | cons c rest ih =>
    have hc : ¬(c = ':') := fun he => h (he ▸ List.mem_cons_self c rest)
    rw [splitOnColonAux, if_neg hc, ih (c :: cur) (fun hm => h (List.mem_cons_of_mem _ hm))]
    simp

theorem splitOnColonAux_append (a b : List Char) (cur : List Char) (h : ':' ∉ a) :
    splitOnColonAux (a ++ ':' :: b) cur = (cur.reverse ++ a) :: splitOnColon b := by
  induction a generalizing cur with
  | nil => simp [splitOnColonAux, splitOnColon]
  | cons c rest ih =>
    have hc : ¬(c = ':') := fun he => h (he ▸ List.mem_cons_self c rest)
    rw [List.cons_append, splitOnColonAux, if_neg hc,
      ih (c :: cur) (fun hm => h (List.mem_cons_of_mem _ hm))]
    simp

theorem splitOnColon_sep (a b : List Char) (ha : ':' ∉ a) (hb : ':' ∉ b) :
    splitOnColon (a ++ ':' :: b) = [a, b] := by
  unfold splitOnColon
  rw [splitOnColonAux_append a b [] ha]
  simp [splitOnColon, splitOnColonAux_no_colon b [] hb]

/-! ## Time-arithmetic roundtrip lemmas -/

theorem timeToMinutes_mk_pad2 (a b : Nat) :
    timeToMinutes (String.mk (pad2 (natToDigits a) ++ ':' :: pad2 (natToDigits b))) =
      a * 60 + b := by
  unfold timeToMinutes
  rw [show (String.mk (pad2 (natToDigits a) ++ ':' :: pad2 (natToDigits b))).data =
      pad2 (natToDigits a) ++ ':' :: pad2 (natToDigits b) from rfl]
  rw [splitOnColon_sep _ _ (colon_not_mem_pad2 (colon_not_mem_natToDigits a))
    (colon_not_mem_pad2 (colon_not_mem_natToDigits b))]
  show parseDigits (pad2 (natToDigits a)) * 60 + parseDigits (pad2 (natToDigits b)) = a * 60 + b
  rw [parseDigits_pad2, parseDigits_pad2, parseDigits_natToDigits, parseDigits_natToDigits]

theorem timeToMinutes_minutesToTime (m : Nat) : timeToMinutes (minutesToTime m) = m := by
  unfold minutesToTime
  rw [timeToMinutes_mk_pad2]
  omega

theorem timeToMinutes_renderHHMM (h m : Nat) : timeToMinutes (renderHHMM h m) = h * 60 + m :=
  timeToMinutes_mk_pad2 h m

theorem minutesToTime_eq_renderHHMM (m : Nat) :
    minutesToTime m = renderHHMM (m / 60) (m % 60) := rfl

theorem ne_colon_of_toNat_le {c : Char} (h : c.toNat ≤ 57) : ¬(c = ':') := by
  intro he
  subst he
  exact absurd h (by decide)

theorem parseDigits_pair (a b : Char) :
    parseDigits [a, b] = (a.toNat - 48) * 10 + (b.toNat - 48) := by
  simp [parseDigits]

theorem pad2_natToDigits_pair {a b : Char}
    (ha1 : 48 ≤ a.toNat) (ha2 : a.toNat ≤ 57) (hb1 : 48 ≤ b.toNat) (hb2 : b.toNat ≤ 57) :
    pad2 (natToDigits ((a.toNat - 48) * 10 + (b.toNat - 48))) = [a, b] := by
  have hxa : digitChar (a.toNat - 48) = a := by
    unfold digitChar
    rw [show 48 + (a.toNat - 48) = a.toNat by omega, Char.ofNat_toNat]
  have hxb : digitChar (b.toNat - 48) = b := by
    unfold digitChar
    rw [show 48 + (b.toNat - 48) = b.toNat by omega, Char.ofNat_toNat]
  by_cases hx0 : a.toNat - 48 = 0
  · have ha0 : a = '0' := by
      rw [← hxa, hx0]
      decide
    rw [hx0]
    rw [show (0 * 10 + (b.toNat - 48)) = b.toNat - 48 by omega]
    rw [natToDigits_unfold, if_pos (show b.toNat - 48 < 10 by omega), hxb]
    rw [pad2, if_pos (by simp)]
    simp [ha0]
  · have hv10 : ¬((a.toNat - 48) * 10 + (b.toNat - 48) < 10) := by omega
    rw [natToDigits_unfold, if_neg hv10]
    rw [show ((a.toNat - 48) * 10 + (b.toNat - 48)) / 10 = a.toNat - 48 by omega]
    rw [show ((a.toNat - 48) * 10 + (b.toNat - 48)) % 10 = b.toNat - 48 by omega]
    rw [natToDigits_unfold, if_pos (show a.toNat - 48 < 10 by omega), hxa, hxb]
    rw [show [a] ++ [b] = [a, b] from rfl]
    rw [pad2, if_neg (by simp)]

/-! ## Slot-generation characterization -/

theorem genSlotsAux_eq (dur : Nat) (hdur : 0 < dur) :
    ∀ fuel time endM, endM + 1 - time ≤ fuel →
      genSlotsAux fuel time endM dur =
        (List.range ((endM - time) / dur)).map (fun i => minutesToTime (time + dur * i)) := by
  intro fuel
  induction fuel with
  | zero =>
    intro time endM hf
    rw [show endM - time = 0 by omega]
    simp [genSlotsAux]
  | succ fuel ih =>
    intro time endM hf
    rw [genSlotsAux]
    by_cases hc : time + dur ≤ endM
    · rw [if_pos hc, ih (time + dur) endM (by omega)]
      have hq : (endM - time) / dur = (endM - (time + dur)) / dur + 1 := by
        rw [show endM - time = (endM - (time + dur)) + dur by omega]
        exact Nat.add_div_right _ hdur
      rw [hq, List.range_succ_eq_map, List.map_cons, List.map_map]
      congr 1
      apply List.map_congr_left
      intro i _
      show minutesToTime (time + dur + dur * i) = minutesToTime (time + dur * Nat.succ i)
      rw [Nat.mul_succ]
      congr 1
      omega
    · rw [if_neg hc, Nat.div_eq_of_lt (by omega)]
      simp

theorem generateTimeSlots_eq (s e : String) (dur : Nat) (hdur : 0 < dur) :
    generateTimeSlots s e dur =
      (List.range ((timeToMinutes e - timeToMinutes s) / dur)).map
        (fun i => minutesToTime (timeToMinutes s + dur * i)) :=
  genSlotsAux_eq dur hdur _ _ _ (Nat.le_refl _)

/-! ## Conflict-marking characterization -/

theorem mem_setAdd {s : List String} {x y : String} :
    y ∈ setAdd s x ↔ y ∈ s ∨ y = x := by
  unfold setAdd
  split
  · next hx =>
    constructor
    · exact Or.inl
    · rintro (h | h)
      · exact h
      · exact h ▸ hx
  · next hx => simp

theorem mem_markInner (allSlots : List String) (acc : List String) (dur : Nat)
    (b : BookingRow) (x : String) :
    x ∈ allSlots.foldl (fun acc2 slot =>
        if timeToMinutes slot < timeToMinutes b.appointment_time + b.duration_minutes ∧
           timeToMinutes slot + dur > timeToMinutes b.appointment_time then
          setAdd acc2 slot
        else acc2) acc ↔
      x ∈ acc ∨ (x ∈ allSlots ∧
        timeToMinutes x < timeToMinutes b.appointment_time + b.duration_minutes ∧
        timeToMinutes x + dur > timeToMinutes b.appointment_time) := by
  induction allSlots generalizing acc with
  | nil => simp
  | cons s rest ih =>
    rw [List.foldl_cons]
    by_cases hc : timeToMinutes s < timeToMinutes b.appointment_time + b.duration_minutes ∧
        timeToMinutes s + dur > timeToMinutes b.appointment_time
    · rw [if_pos hc, ih]
      constructor
      · rintro (hmem | ⟨h1, h2⟩)
        · rcases mem_setAdd.mp hmem with h | h
          · exact Or.inl h
          · exact Or.inr ⟨by simp [h], h ▸ hc⟩
        · exact Or.inr ⟨List.mem_cons_of_mem _ h1, h2⟩
      · rintro (h | ⟨h1, h2⟩)
        · exact Or.inl (mem_setAdd.mpr (Or.inl h))
        · rcases List.mem_cons.mp h1 with he | hm
          · exact Or.inl (mem_setAdd.mpr (Or.inr he))
          · exact Or.inr ⟨hm, h2⟩
    · rw [if_neg hc, ih]
      constructor
      · rintro (h | ⟨h1, h2⟩)
        · exact Or.inl h
        · exact Or.inr ⟨List.mem_cons_of_mem _ h1, h2⟩
      · rintro (h | ⟨h1, h2⟩)
        · exact Or.inl h
        · rcases List.mem_cons.mp h1 with he | hm
          · exact absurd (he ▸ h2) hc
          · exact Or.inr ⟨hm, h2⟩

theorem mem_markFold (allSlots : List String) (dur : Nat) (x : String) :
    ∀ (bookings : List BookingRow) (acc : List String),
      x ∈ bookings.foldl (fun acc booking =>
          allSlots.foldl (fun acc2 slot =>
            if timeToMinutes slot < timeToMinutes booking.appointment_time +
                 booking.duration_minutes ∧
               timeToMinutes slot + dur > timeToMinutes booking.appointment_time then
              setAdd acc2 slot
            else acc2) acc) acc ↔
        x ∈ acc ∨ (x ∈ allSlots ∧ ∃ b ∈ bookings,
          timeToMinutes x < timeToMinutes b.appointment_time + b.duration_minutes ∧
          timeToMinutes x + dur > timeToMinutes b.appointment_time) := by
  intro bookings
  induction bookings with
  | nil => simp
  | cons b rest ih =>
    intro acc
    rw [List.foldl_cons, ih, mem_markInner]
    constructor
    · rintro ((h | ⟨h1, h2⟩) | ⟨h1, b2, hb2, h2⟩)
      · exact Or.inl h
      · exact Or.inr ⟨h1, b, List.mem_cons_self b rest, h2⟩
      · exact Or.inr ⟨h1, b2, List.mem_cons_of_mem _ hb2, h2⟩
    · rintro (h | ⟨h1, b2, hb2, h2⟩)
      · exact Or.inl (Or.inl h)
      · rcases List.mem_cons.mp hb2 with he | hm
        · exact Or.inl (Or.inr ⟨h1, he ▸ h2⟩)
        · exact Or.inr ⟨h1, b2, hm, h2⟩

theorem isBlocked_iff (x : String) (dur : Nat) (bookings : List BookingRow) :
    isBlocked x dur bookings = true ↔
      ∃ b ∈ bookings,
        timeToMinutes x < timeToMinutes b.appointment_time + b.duration_minutes ∧
        timeToMinutes x + dur > timeToMinutes b.appointment_time := by
  simp [isBlocked, List.any_eq_true]

theorem mem_markBookedSlots (allSlots : List String) (dur : Nat) (bookings : List BookingRow)
    (x : String) :
    x ∈ markBookedSlots allSlots dur bookings ↔
      x ∈ allSlots ∧ isBlocked x dur bookings = true := by
  unfold markBookedSlots
  rw [mem_markFold, isBlocked_iff]
  simp

theorem filterAvailableSlots_eq (allSlots : List String) (dur : Nat)
    (bookings : List BookingRow) :
    filterAvailableSlots allSlots dur bookings =
      allSlots.filter (fun slot => !(isBlocked slot dur bookings)) := by
  unfold filterAvailableSlots
  apply List.filter_congr
  intro x hx
  congr 1
  by_cases hb : isBlocked x dur bookings = true
  · rw [hb]
    exact List.elem_iff.mpr (mem_markBookedSlots allSlots dur bookings x |>.mpr ⟨hx, hb⟩)
  · rw [Bool.not_eq_true] at hb
    rw [hb, Bool.eq_false_iff]
    intro hcontains
    rw [(mem_markBookedSlots allSlots dur bookings x |>.mp (List.elem_iff.mp hcontains)).2] at hb
    exact Bool.true_eq_false_eq_False hb

/-! ## Creation-route conflict loop -/

theorem postConflictLoop_eq (l : List BookingRow) (rs re : Nat) :
    postConflictLoop l rs re =
      l.any (fun b =>
        decide (rs < timeToMinutes b.appointment_time + b.duration_minutes) &&
        decide (re > timeToMinutes b.appointment_time)) := by
  induction l with
  | nil => rfl
  | cons b rest ih =>
    rw [postConflictLoop, List.any_cons]
    by_cases hc : rs < timeToMinutes b.appointment_time + b.duration_minutes ∧
        re > timeToMinutes b.appointment_time
    · rw [if_pos hc]
      simp [hc.1, hc.2]
    · rw [if_neg hc, ih]
      rcases Decidable.not_and_iff_or_not.mp hc with h | h <;> simp [h]

theorem mem_queryActiveBookings (rows : List BookingFullRow) (bid d : String)
    (b : BookingRow) :
    b ∈ queryActiveBookings rows bid d ↔
      ∃ r ∈ rows, r.barber_id = bid ∧ r.appointment_date = d ∧
        (r.status = BookingStatus.pending ∨ r.status = BookingStatus.confirmed) ∧
        b = { appointment_time := r.appointment_time,
              duration_minutes := r.duration_minutes } := by
  unfold queryActiveBookings
  simp only [List.mem_map, List.mem_filter]
  constructor
  · rintro ⟨r, ⟨hr, hcond⟩, rfl⟩
    simp only [Bool.and_eq_true, Bool.or_eq_true, decide_eq_true_eq] at hcond
    exact ⟨r, hr, hcond.1.1, hcond.1.2, hcond.2, rfl⟩
  · rintro ⟨r, hr, h1, h2, h3, rfl⟩
    refine ⟨r, ⟨hr, ?_⟩, rfl⟩
    simp only [Bool.and_eq_true, Bool.or_eq_true, decide_eq_true_eq]
    exact ⟨⟨h1, h2⟩, h3⟩

/-! ## The valid-string roundtrip -/

theorem minutesToTime_timeToMinutes_valid (t : String) (hv : isValidHHMM t = true) :
    minutesToTime (timeToMinutes t) = t := by
  unfold isValidHHMM at hv
  split at hv
  · next h1 h2 m1 m2 heq =>
    simp only [Bool.and_eq_true, decide_eq_true_eq] at hv
    obtain ⟨⟨⟨⟨⟨⟨⟨⟨⟨hh1a, hh1b⟩, hh2a⟩, hh2b⟩, hm1a⟩, hm1b⟩, hm2a⟩, hm2b⟩, hH⟩, hM⟩ := hv
    have htm : timeToMinutes t =
        ((h1.toNat - 48) * 10 + (h2.toNat - 48)) * 60 +
          ((m1.toNat - 48) * 10 + (m2.toNat - 48)) := by
      unfold timeToMinutes
      rw [heq]
      rw [show ([h1, h2, ':', m1, m2] : List Char) = [h1, h2] ++ ':' :: [m1, m2] from rfl]
      rw [splitOnColon_sep [h1, h2] [m1, m2]
        (by
          intro hmem
          rcases List.mem_cons.mp hmem with he | hmem2
          · exact ne_colon_of_toNat_le hh1b he.symm
          · rcases List.mem_cons.mp hmem2 with he | hmem3
            · exact ne_colon_of_toNat_le hh2b he.symm
            · simp at hmem3)
        (by
          intro hmem
          rcases List.mem_cons.mp hmem with he | hmem2
          · exact ne_colon_of_toNat_le hm1b he.symm
          · rcases List.mem_cons.mp hmem2 with he | hmem3
            · exact ne_colon_of_toNat_le hm2b he.symm
            · simp at hmem3)]
      show parseDigits [h1, h2] * 60 + parseDigits [m1, m2] = _
      rw [parseDigits_pair, parseDigits_pair]
    rw [htm]
    unfold minutesToTime
    rw [show (((h1.toNat - 48) * 10 + (h2.toNat - 48)) * 60 +
        ((m1.toNat - 48) * 10 + (m2.toNat - 48))) / 60 =
        (h1.toNat - 48) * 10 + (h2.toNat - 48) by omega]
    rw [show (((h1.toNat - 48) * 10 + (h2.toNat - 48)) * 60 +
        ((m1.toNat - 48) * 10 + (m2.toNat - 48))) % 60 =
        (m1.toNat - 48) * 10 + (m2.toNat - 48) by omega]
    rw [pad2_natToDigits_pair hh1a hh1b hh2a hh2b,
      pad2_natToDigits_pair hm1a hm1b hm2a hm2b]
    cases t
    simp only at heq
    rw [heq]
    rfl
  · exact absurd hv (by decide)

/-! ## Claim theorems -/

/-- C6: for every valid zero-padded 24-hour `HH:MM` string `t` (hours
00-23, minutes 00-59), `minutesToTime (timeToMinutes t) = t`. -/
theorem claim_C6 (t : String) (hv : isValidHHMM t = true) :
    minutesToTime (timeToMinutes t) = t :=
  minutesToTime_timeToMinutes_valid t hv

theorem claim_C6_witness :
    isValidHHMM "09:30" = true ∧ minutesToTime (timeToMinutes "09:30") = "09:30" :=
  ⟨by decide, claim_C6 "09:30" (by decide)⟩

/-- C9: for every natural number `m` (including `m ≥ 1440`),
`timeToMinutes (minutesToTime m) = m`; `minutesToTime` performs no
modulo-1440 day wrap, so `calculateEndTime` on a slot crossing midnight
yields an hour field of 24 or more: `calculateEndTime "23:30" 60 =
"24:30"` rather than a next-day wrap. -/
theorem claim_C9 (m : Nat) :
    timeToMinutes (minutesToTime m) = m ∧ calculateEndTime "23:30" 60 = "24:30" :=
  ⟨timeToMinutes_minutesToTime m, by decide⟩

/-- C5: for `start < end` and `duration > 0` (in minutes),
`generateTimeSlots start end duration` is exactly the arithmetic
progression `start, start + duration, start + 2 * duration, ...` of whole
slots; every emitted slot `x` satisfies
`timeToMinutes x + duration ≤ timeToMinutes end` (a partial trailing slot
is dropped); the result is empty when `end - start < duration`; and when
`(end - start) % duration = 0` the length is `(end - start) / duration`
and the last element plus the duration equals `end`. -/
theorem claim_C5 (s e : String) (dur : Nat) (hdur : 0 < dur)
    (hlt : timeToMinutes s < timeToMinutes e) :
    generateTimeSlots s e dur =
      (List.range ((timeToMinutes e - timeToMinutes s) / dur)).map
        (fun i => minutesToTime (timeToMinutes s + dur * i)) ∧
    (∀ x ∈ generateTimeSlots s e dur, timeToMinutes x + dur ≤ timeToMinutes e) ∧
    (timeToMinutes e - timeToMinutes s < dur → generateTimeSlots s e dur = []) ∧
    ((timeToMinutes e - timeToMinutes s) % dur = 0 →
      (generateTimeSlots s e dur).length = (timeToMinutes e - timeToMinutes s) / dur ∧
      timeToMinutes ((generateTimeSlots s e dur).getLast?.getD "") + dur =
        timeToMinutes e) := by
  have heq := generateTimeSlots_eq s e dur hdur
  refine ⟨heq, ?_, ?_, ?_⟩
  · intro x hx
    rw [heq] at hx
    obtain ⟨i, hi, rfl⟩ := List.mem_map.mp hx
    rw [timeToMinutes_minutesToTime]
    have hiq : i < (timeToMinutes e - timeToMinutes s) / dur := List.mem_range.mp hi
    have h1 : dur * (i + 1) ≤ dur * ((timeToMinutes e - timeToMinutes s) / dur) :=
      Nat.mul_le_mul_left dur hiq
    have h2 : (timeToMinutes e - timeToMinutes s) / dur * dur ≤
        timeToMinutes e - timeToMinutes s := Nat.div_mul_le_self _ _
    rw [Nat.mul_comm] at h2
    rw [Nat.mul_succ] at h1
    omega
  · intro hlt2
    rw [heq, Nat.div_eq_of_lt hlt2]
    rfl
  · intro hmod
    have hds : dur ∣ (timeToMinutes e - timeToMinutes s) := Nat.dvd_of_mod_eq_zero hmod
    have hqd : (timeToMinutes e - timeToMinutes s) / dur * dur =
        timeToMinutes e - timeToMinutes s := Nat.div_mul_cancel hds
    refine ⟨by rw [heq, List.length_map, List.length_range], ?_⟩
    obtain ⟨q2, hq2⟩ : ∃ q2, (timeToMinutes e - timeToMinutes s) / dur = q2 + 1 := by
      have hne : (timeToMinutes e - timeToMinutes s) / dur ≠ 0 := by
        intro h0
        rw [h0] at hqd
        omega
      exact ⟨(timeToMinutes e - timeToMinutes s) / dur - 1,
        (Nat.succ_pred_eq_of_pos (Nat.pos_of_ne_zero hne)).symm⟩
    rw [heq, hq2, List.range_succ, List.map_append]
    simp only [List.map_cons, List.map_nil]
    rw [List.getLast?_concat]
    show timeToMinutes (minutesToTime (timeToMinutes s + dur * q2)) + dur = timeToMinutes e
    rw [timeToMinutes_minutesToTime]
    rw [hq2] at hqd
    have hsm : (q2 + 1) * dur = q2 * dur + dur := Nat.succ_mul q2 dur
    rw [Nat.mul_comm dur q2]
    omega

theorem claim_C5_witness :
    (0 : Nat) < 30 ∧ timeToMinutes "09:00" < timeToMinutes "10:00" ∧
    (generateTimeSlots "09:00" "10:00" 30 =
      (List.range ((timeToMinutes "10:00" - timeToMinutes "09:00") / 30)).map
        (fun i => minutesToTime (timeToMinutes "09:00" + 30 * i)) ∧
    (∀ x ∈ generateTimeSlots "09:00" "10:00" 30,
      timeToMinutes x + 30 ≤ timeToMinutes "10:00") ∧
    (timeToMinutes "10:00" - timeToMinutes "09:00" < 30 →
      generateTimeSlots "09:00" "10:00" 30 = []) ∧
    ((timeToMinutes "10:00" - timeToMinutes "09:00") % 30 = 0 →
      (generateTimeSlots "09:00" "10:00" 30).length =
        (timeToMinutes "10:00" - timeToMinutes "09:00") / 30 ∧
      timeToMinutes ((generateTimeSlots "09:00" "10:00" 30).getLast?.getD "") + 30 =
        timeToMinutes "10:00")) :=
  ⟨by decide, by decide, claim_C5 "09:00" "10:00" 30 (by decide) (by decide)⟩

/-- C1: a candidate slot is blocked iff some existing active booking
(same barber and date, status `pending` or `confirmed`) satisfies
`slotStart < occupiedEnd ∧ slotEnd > occupiedStart` (half-open overlap);
the slots route removes exactly the blocked slots, returning the rest in
their original order (`List.filter`); the active-booking query keeps
exactly the rows with status `pending` or `confirmed` for the barber and
date; and the single-booking-creation path applies exactly the same
overlap test to the one requested time, answering with the 409 conflict
rejection when it fires. -/
theorem claim_C1 (allSlots : List String) (bookings : List BookingRow) (dur : Nat)
    (rows : List BookingFullRow) (bid d : String) (t : String) (b : BookingRow)
    (b2 : BarberProfile) (now : String) (req : CreateReq) (existing : List BookingRow)
    (insertError : Option DBError) :
    filterAvailableSlots allSlots dur bookings =
      allSlots.filter (fun slot => !(isBlocked slot dur bookings)) ∧
    (isBlocked t dur bookings = true ↔
      ∃ bk ∈ bookings,
        timeToMinutes t < timeToMinutes bk.appointment_time + bk.duration_minutes ∧
        timeToMinutes t + dur > timeToMinutes bk.appointment_time) ∧
    (b ∈ queryActiveBookings rows bid d ↔
      ∃ r ∈ rows, r.barber_id = bid ∧ r.appointment_date = d ∧
        (r.status = BookingStatus.pending ∨ r.status = BookingStatus.confirmed) ∧
        b = { appointment_time := r.appointment_time,
              duration_minutes := r.duration_minutes }) ∧
    postConflictLoop bookings (timeToMinutes t) (timeToMinutes t + dur) =
      isBlocked t dur bookings ∧
    (b2.status = "approved" →
      isoLe (req.appointment_date ++ "T" ++ req.appointment_time) now = false →
      postConflictLoop existing (timeToMinutes req.appointment_time)
        (timeToMinutes req.appointment_time + b2.appointment_duration) = true →
      postCreateBooking (some b2) now req existing insertError =
        (PostResult.conflict "This time slot is no longer available", false)) := by
  refine ⟨filterAvailableSlots_eq allSlots dur bookings,
    isBlocked_iff t dur bookings,
    mem_queryActiveBookings rows bid d b,
    by rw [postConflictLoop_eq]; rfl,
    ?_⟩
  intro happ hfut hconf
  simp [postCreateBooking, happ, hfut, hconf]

theorem claim_C1_witness :
    postCreateBooking
      (some { base_price := 30, appointment_duration := 45,
              location_type := "fixed", status := "approved" })
      "2026-01-01T00:00"
      { barber_id := "b1", appointment_date := "2026-02-01", appointment_time := "09:30",
        customer_notes := none, customer_location := none }
      [{ appointment_time := "09:00", duration_minutes := 45 }] none =
      (PostResult.conflict "This time slot is no longer available", false) :=
  (claim_C1 [] [] 45 [] "b1" "2026-02-01" "09:30"
    { appointment_time := "09:00", duration_minutes := 45 }
    { base_price := 30, appointment_duration := 45,
      location_type := "fixed", status := "approved" }
    "2026-01-01T00:00"
    { barber_id := "b1", appointment_date := "2026-02-01", appointment_time := "09:30",
      customer_notes := none, customer_location := none }
    [{ appointment_time := "09:00", duration_minutes := 45 }]
    none).2.2.2.2 rfl (by decide) (by decide)

/-- C4: when an `AvailabilityException` row exists for the requested
barber and date, the resolver ignores the recurring weekly schedule
entirely: if the availability flag is false the route answers with an
empty slot list and the message `Barber is not available on this date`
regardless of the schedule; if the flag is true the resolver produces
exactly one window, the exception's start/end times; and in either case
the whole response is independent of the recurring schedule. -/
theorem claim_C4 (ex : ExceptionRow) (schedule schedule2 : List ScheduleRow)
    (bookings : List BookingRow) (dur : Nat) :
    (ex.is_available = false →
      getAvailableSlots (some ex) schedule bookings dur =
        SlotsResponse.earlyEmpty "Barber is not available on this date") ∧
    (ex.is_available = true →
      resolveAvailableHours (some ex) schedule =
        Except.ok [{ start_time := ex.start_time, end_time := ex.end_time }]) ∧
    getAvailableSlots (some ex) schedule bookings dur =
      getAvailableSlots (some ex) schedule2 bookings dur := by
  refine ⟨?_, ?_, ?_⟩
  · intro hf
    simp [getAvailableSlots, resolveAvailableHours, hf]
  · intro ht
    simp [resolveAvailableHours, ht]
  · cases hav : ex.is_available <;>
      simp [getAvailableSlots, resolveAvailableHours, hav]

theorem claim_C4_witness :
    getAvailableSlots
      (some { is_available := false, start_time := "09:00", end_time := "17:00" })
      [{ start_time := "10:00", end_time := "12:00" }] [] 30 =
      SlotsResponse.earlyEmpty "Barber is not available on this date" :=
  (claim_C4 { is_available := false, start_time := "09:00", end_time := "17:00" }
    [{ start_time := "10:00", end_time := "12:00" }] [] [] 30).1 rfl

/-- C10: booking creation rejects a request whose combined appointment
date-time is less than or equal to the current time with the 400 error
`Appointment must be in the future`; the rejection is decided before the
conflict check against existing bookings and before any insert (the
result is the same for every existing-bookings list and every insert
outcome, and no row is persisted). -/
theorem claim_C10 (b : BarberProfile) (now : String) (req : CreateReq)
    (existing : List BookingRow) (insertError : Option DBError)
    (happ : b.status = "approved")
    (hpast : isoLe (req.appointment_date ++ "T" ++ req.appointment_time) now = true) :
    postCreateBooking (some b) now req existing insertError =
      (PostResult.badRequest "Appointment must be in the future", false) := by
  simp [postCreateBooking, happ, hpast]

theorem claim_C10_witness :
    postCreateBooking
      (some { base_price := 30, appointment_duration := 45,
              location_type := "fixed", status := "approved" })
      "2026-03-01T10:00"
      { barber_id := "b1", appointment_date := "2026-02-01", appointment_time := "09:00",
        customer_notes := none, customer_location := none }
      [{ appointment_time := "09:00", duration_minutes := 45 }]
      (some { code := "23505" }) =
      (PostResult.badRequest "Appointment must be in the future", false) :=
  claim_C10
    { base_price := 30, appointment_duration := 45,
      location_type := "fixed", status := "approved" }
    "2026-03-01T10:00"
    { barber_id := "b1", appointment_date := "2026-02-01", appointment_time := "09:00",
      customer_notes := none, customer_location := none }
    [{ appointment_time := "09:00", duration_minutes := 45 }]
    (some { code := "23505" }) rfl (by decide)

/-- C3 (divergence witness): when the booking insert fails with the
PostgreSQL unique-constraint violation code `23505` (the
`prevent_double_booking` partial unique index on barber/date/time over
`pending`/`confirmed` rows), the creation route answers with the generic
500 `Failed to create booking`, not with the 409 slot-taken conflict the
specification requires: the source rethrows the insert error
(`if (bookingError) throw bookingError`) and its catch-all treats it as
an unexpected failure. -/
theorem claim_C3 :
    postCreateBooking
      (some { base_price := 30, appointment_duration := 45,
              location_type := "fixed", status := "approved" })
      "2026-01-01T00:00"
      { barber_id := "b1", appointment_date := "2026-02-01", appointment_time := "09:00",
        customer_notes := none, customer_location := none }
      [] (some { code := "23505" }) =
      (PostResult.serverError "Failed to create booking", false) := by decide

/-- C2 counterexample: the barber requesting `no_show` on a booking whose
current status is `completed` is accepted by the PATCH handler (there is
no current-status guard for `no_show`), and the stored record changes —
refuting the claim that every status-update attempt on a terminal
(`completed`/`cancelled`/`no_show`) booking is rejected with the record
left unchanged. -/
theorem claim_C2_counterexample :
    isRejection (patchBooking false true
      { status := BookingStatus.completed, confirmed_at := none, completed_at := none,
        cancelled_by := none, cancellation_reason := none,
        updated_at := "2026-01-01T00:00" }
      { status := UpdateStatus.no_show, cancellation_reason := none, cancelled_by := none }
      "2026-01-02T00:00") = false ∧
    bookingAfterPatch false true
      { status := BookingStatus.completed, confirmed_at := none, completed_at := none,
        cancelled_by := none, cancellation_reason := none,
        updated_at := "2026-01-01T00:00" }
      { status := UpdateStatus.no_show, cancellation_reason := none, cancelled_by := none }
      "2026-01-02T00:00" ≠
      { status := BookingStatus.completed, confirmed_at := none, completed_at := none,
        cancelled_by := none, cancellation_reason := none,
        updated_at := "2026-01-01T00:00" } := by decide

/-- C2 (amended): on a booking whose current status is terminal
(`completed`, `cancelled` or `no_show`), transitions to `confirmed` or
`completed` are always rejected with the record unchanged (they require
current status `pending` resp. `confirmed`), and a `completed` →
`cancelled` attempt is always rejected with the record unchanged
regardless of actor; but a `no_show` request by the barber carries no
current-status guard and is accepted from any current status, including
the terminal ones. -/
theorem claim_C2 (cust barb : Bool) (b : Booking) (req : UpdateReq) (now : String)
    (hterm : b.status = BookingStatus.completed ∨ b.status = BookingStatus.cancelled ∨
      b.status = BookingStatus.no_show) :
    ((req.status = UpdateStatus.confirmed ∨ req.status = UpdateStatus.completed) →
      isRejection (patchBooking cust barb b req now) = true ∧
      bookingAfterPatch cust barb b req now = b) ∧
    ((req.status = UpdateStatus.cancelled ∧ b.status = BookingStatus.completed) →
      isRejection (patchBooking cust barb b req now) = true ∧
      bookingAfterPatch cust barb b req now = b) ∧
    ((req.status = UpdateStatus.no_show ∧ barb = true) →
      patchBooking cust barb b req now =
        PatchOutcome.ok (applyUpdate b req now) "Booking marked as no-show") := by
  refine ⟨?_, ?_, ?_⟩
  · intro h
    rcases h with h | h <;> rcases hterm with hb | hb | hb <;> cases cust <;> cases barb <;>
      simp [patchBooking, bookingAfterPatch, isRejection, h, hb]
  · rintro ⟨h1, h2⟩
    cases cust <;> cases barb <;> rcases hc : req.cancelled_by with _ | p <;>
      try cases p
    all_goals simp [patchBooking, bookingAfterPatch, isRejection, h1, h2, hc]
  · rintro ⟨h1, h2⟩
    subst h2
    cases cust <;> simp [patchBooking, h1, patchMessage]

theorem claim_C2_witness :
    isRejection (patchBooking false true
      { status := BookingStatus.completed, confirmed_at := none, completed_at := none,
        cancelled_by := none, cancellation_reason := none,
        updated_at := "2026-01-01T00:00" }
      { status := UpdateStatus.confirmed, cancellation_reason := none, cancelled_by := none }
      "2026-01-02T00:00") = true ∧
    bookingAfterPatch false true
      { status := BookingStatus.completed, confirmed_at := none, completed_at := none,
        cancelled_by := none, cancellation_reason := none,
        updated_at := "2026-01-01T00:00" }
      { status := UpdateStatus.confirmed, cancellation_reason := none, cancelled_by := none }
      "2026-01-02T00:00" =
      { status := BookingStatus.completed, confirmed_at := none, completed_at := none,
        cancelled_by := none, cancellation_reason := none,
        updated_at := "2026-01-01T00:00" } :=
  (claim_C2 false true
    { status := BookingStatus.completed, confirmed_at := none, completed_at := none,
      cancelled_by := none, cancellation_reason := none,
      updated_at := "2026-01-01T00:00" }
    { status := UpdateStatus.confirmed, cancellation_reason := none, cancelled_by := none }
    "2026-01-02T00:00" (Or.inl rfl)).1 (Or.inl rfl)

/-- C7: only the barber may trigger `pending` → `confirmed` and
`confirmed` → `completed`, and each requires the stated current status: a
confirm attempt by a non-barber actor, a confirm on a non-pending
booking, a complete attempt by a non-barber actor, or a complete on a
non-confirmed booking is rejected (403 authorization or 400
state-conflict) with the record unchanged; conversely the barber's
confirm on a `pending` booking and complete on a `confirmed` booking are
accepted. -/
theorem claim_C7 (cust barb : Bool) (b : Booking) (req : UpdateReq) (now : String) :
    ((req.status = UpdateStatus.confirmed ∧
        (barb = false ∨ b.status ≠ BookingStatus.pending)) →
      isRejection (patchBooking cust barb b req now) = true ∧
      bookingAfterPatch cust barb b req now = b) ∧
    ((req.status = UpdateStatus.completed ∧
        (barb = false ∨ b.status ≠ BookingStatus.confirmed)) →
      isRejection (patchBooking cust barb b req now) = true ∧
      bookingAfterPatch cust barb b req now = b) ∧
    ((req.status = UpdateStatus.confirmed ∧ barb = true ∧
        b.status = BookingStatus.pending) →
      patchBooking cust barb b req now =
        PatchOutcome.ok (applyUpdate b req now) "Booking confirmed successfully") ∧
    ((req.status = UpdateStatus.completed ∧ barb = true ∧
        b.status = BookingStatus.confirmed) →
      patchBooking cust barb b req now =
        PatchOutcome.ok (applyUpdate b req now) "Booking marked as completed") := by
  refine ⟨?_, ?_, ?_, ?_⟩
  · rintro ⟨h1, h2⟩
    rcases h2 with h2 | h2 <;> cases cust <;> cases barb <;>
      simp_all [patchBooking, bookingAfterPatch, isRejection]
  · rintro ⟨h1, h2⟩
    rcases h2 with h2 | h2 <;> cases cust <;> cases barb <;>
      simp_all [patchBooking, bookingAfterPatch, isRejection]
  · rintro ⟨h1, h2, h3⟩
    subst h2
    cases cust <;> simp [patchBooking, h1, h3, patchMessage]
  · rintro ⟨h1, h2, h3⟩
    subst h2
    cases cust <;> simp [patchBooking, h1, h3, patchMessage]

theorem claim_C7_witness :
    isRejection (patchBooking true false
      { status := BookingStatus.confirmed, confirmed_at := some "2026-01-01T01:00",
        completed_at := none, cancelled_by := none, cancellation_reason := none,
        updated_at := "2026-01-01T01:00" }
      { status := UpdateStatus.completed, cancellation_reason := none, cancelled_by := none }
      "2026-01-02T00:00") = true ∧
    bookingAfterPatch true false
      { status := BookingStatus.confirmed, confirmed_at := some "2026-01-01T01:00",
        completed_at := none, cancelled_by := none, cancellation_reason := none,
        updated_at := "2026-01-01T01:00" }
      { status := UpdateStatus.completed, cancellation_reason := none, cancelled_by := none }
      "2026-01-02T00:00" =
      { status := BookingStatus.confirmed, confirmed_at := some "2026-01-01T01:00",
        completed_at := none, cancelled_by := none, cancellation_reason := none,
        updated_at := "2026-01-01T01:00" } :=
  (claim_C7 true false
    { status := BookingStatus.confirmed, confirmed_at := some "2026-01-01T01:00",
      completed_at := none, cancelled_by := none, cancellation_reason := none,
      updated_at := "2026-01-01T01:00" }
    { status := UpdateStatus.completed, cancellation_reason := none, cancelled_by := none }
    "2026-01-02T00:00").2.1 ⟨rfl, Or.inl rfl⟩

/-- C8 counterexample: an exception with availability flag false and
both times present is accepted by `addExceptionSchema` — refuting the
claimed invariant direction that when the flag is false both times must
be absent (the schema constrains the times only when the flag is
true). -/
theorem claim_C8_counterexample :
    addExceptionValidate "2026-02-01" false (some "09:00") (some "10:00") = true ∧
    (some "09:00" : Option String) ≠ none := by decide

/-- C8 (amended): creation of an availability exception accepts an input
iff the date matches the `YYYY-MM-DD` pattern, every provided time
matches the 24-hour time pattern, and — when the availability flag is
true — both times are present with the start lexicographically smaller
than the end (JavaScript string comparison); when the flag is false the
times are not constrained and may be present. -/
theorem claim_C8 (date : String) (av : Bool) (st et : Option String) :
    addExceptionValidate date av st et = true ↔
      (dateRegexTest date = true ∧
       (∀ s, st = some s → timeRegexTest s = true) ∧
       (∀ s, et = some s → timeRegexTest s = true) ∧
       (av = true → ∃ s e2, st = some s ∧ et = some e2 ∧ lexLt s.data e2.data = true)) := by
  cases st <;> cases et <;> cases av <;>
    simp [addExceptionValidate, and_assoc]

theorem claim_C8_witness :
    dateRegexTest "2026-02-01" = true ∧
    (∀ s, (some "09:00" : Option String) = some s → timeRegexTest s = true) ∧
    (∀ s, (some "17:00" : Option String) = some s → timeRegexTest s = true) ∧
    (true = true → ∃ s e2, (some "09:00" : Option String) = some s ∧
      (some "17:00" : Option String) = some e2 ∧ lexLt s.data e2.data = true) :=
  (claim_C8 "2026-02-01" true (some "09:00") (some "17:00")).mp (by decide)
